import Mathlib

/-!
Shallow embedding of the savages-list todo application (src/src/App.tsx).

Modelling conventions:
- JavaScript strings are modelled as `List Char`.
- JavaScript numbers that the program only ever uses as integers
  (the `duration` field, always 0) are modelled as `Int`.
- The ambient random source `Math.random()` is passed explicitly: each draw
  is represented by the base-16 fractional digit expansion of the drawn
  number in [0,1) (the empty list denotes the draw 0), which is exactly the
  information `Number.prototype.toString(16)` renders for such a value.
- Fallible operations (out-of-bounds element access, storage reads, JSON
  parsing) return `Option` / `Except`.
-/

namespace SavagesList

/-- The `TodoStatus` enum of App.tsx (lines 13-18): `todo`, `doing`, `done`,
`blocked`. -/
inductive TodoStatus where
  | TODO
  | DOING
  | DONE
  | BLOCKED
deriving DecidableEq

/-- The `Todo` record of App.tsx (lines 6-11): id, text, status, duration. -/
structure Todo where
  id : List Char
  text : List Char
  status : TodoStatus
  duration : Int
deriving DecidableEq

/-- The status-advance function `getStatus` defined inside `updateTodo`
(App.tsx lines 226-236): todo -> doing -> done -> blocked, anything
else (i.e. blocked) -> todo. -/
def getStatus : TodoStatus → TodoStatus
  | .TODO => .DOING
  | .DOING => .DONE
  | .DONE => .BLOCKED
  | .BLOCKED => .TODO

/-- Model of `updateTodo` (App.tsx lines 225-241): copies the list, mutates the status
of the element at `index` to its successor in the cycle.  In JavaScript an
out-of-bounds index makes `newTodos[index].status = ...` throw a TypeError;
this is modelled by returning `none`. -/
def updateTodo (todos : List Todo) (index : Nat) : Option (List Todo) :=
  (todos.get? index).map fun t =>
    todos.set index { t with status := getStatus t.status }

/-- Iteration: `n` successive invocations of `updateTodo` at the same index,
propagating the exceptional (out-of-bounds) case. -/
def advanceTimes (todos : List Todo) (index : Nat) : Nat → Option (List Todo)
  | 0 => some todos
  | n + 1 => (advanceTimes todos index n).bind fun l => updateTodo l index

/-- One fragment of the identifier generator: a character of the base-16
rendering of a number, `0`-`9` then `a`-`f` (JavaScript renders lowercase). -/
def hexChar (d : Fin 16) : Char :=
  if d.val < 10 then Char.ofNat (48 + d.val) else Char.ofNat (87 + d.val)

/-- Model of `Number.prototype.toString(16)` for a value in [0,1): `0` renders as
"0"; a nonzero value renders as "0." followed by its base-16 fractional
digits (the draw is represented by that digit list, see the header). -/
def toString16 (d : List (Fin 16)) : List Char :=
  if d = [] then ['0'] else '0' :: '.' :: d.map hexChar

/-- Model of `String.prototype.slice(-n)`: the last `n` characters, or the whole
string when it is shorter than `n`. -/
def sliceLast (n : Nat) (s : List Char) : List Char :=
  s.drop (s.length - n)

/-- Model of `gen4` (App.tsx lines 60-62): `Math.random().toString(16).slice(-4)`,
applied to one explicit random draw. -/
def gen4 (d : List (Fin 16)) : List Char :=
  sliceLast 4 (toString16 d)

/-- Model of `simpleUniqueId` (App.tsx lines 64-68): the concatenation
(`[...].join("")`) of eight `gen4` fragments, one per random draw. -/
def simpleUniqueId (draws : Fin 8 → List (Fin 16)) : List Char :=
  [gen4 (draws 0), gen4 (draws 1), gen4 (draws 2), gen4 (draws 3),
   gen4 (draws 4), gen4 (draws 5), gen4 (draws 6), gen4 (draws 7)].flatten

/-- Model of `addTodo` (App.tsx lines 209-215): prepends a new todo with the given
text, status `todo`, a fresh id from `simpleUniqueId`, and duration 0.
The random draws consumed by `simpleUniqueId` are passed explicitly. -/
def addTodo (draws : Fin 8 → List (Fin 16)) (text : List Char)
    (todos : List Todo) : List Todo :=
  { text := text, status := .TODO, id := simpleUniqueId draws, duration := 0 }
    :: todos

/-- Model of `TodoForm.handleSubmit` (App.tsx lines 179-184) restricted to its list
effect: if the field value is falsy (the empty string) the submission is
ignored, otherwise `addTodo` runs on the value. -/
def handleSubmit (draws : Fin 8 → List (Fin 16)) (value : List Char)
    (todos : List Todo) : List Todo :=
  if value = [] then todos else addTodo draws value todos

/-- Model of `deleteTodo` (App.tsx lines 217-223): asks for confirmation
(`window.confirm`, passed explicitly as `confirmResult`); when confirmed,
keeps exactly the todos whose id differs from the argument (named `index`
in the source, but it carries the id string). -/
def deleteTodo (confirmResult : Bool) (todos : List Todo)
    (index : List Char) : List Todo :=
  if confirmResult then todos.filter (fun t => decide ¬(t.id = index))
  else todos

/-- The `setList` callback wired to the drag container (App.tsx line 250):
the state is replaced wholesale by the externally supplied reordered
array. -/
def setList (todos newOrder : List Todo) : List Todo :=
  newOrder

/-- A JSON value tree: the object graph `JSON.stringify` serializes and
`JSON.parse` rebuilds.  Object keys and string payloads are `List Char`;
the only numbers this program stores are integers (`duration`, always 0). -/
inductive Json where
  | null
  | bool (b : Bool)
  | num (n : Int)
  | str (s : List Char)
  | arr (elems : List Json)
  | obj (fields : List (List Char × Json))

/-- The string value of a `TodoStatus` enum member (App.tsx lines 13-18),
which is what `JSON.stringify` emits for it. -/
def statusToStr : TodoStatus → List Char
  | .TODO => "todo".toList
  | .DOING => "doing".toList
  | .DONE => "done".toList
  | .BLOCKED => "blocked".toList

/-- Reading a `TodoStatus` back from its serialized string. -/
def statusOfStr (s : List Char) : Option TodoStatus :=
  if s = "todo".toList then some .TODO
  else if s = "doing".toList then some .DOING
  else if s = "done".toList then some .DONE
  else if s = "blocked".toList then some .BLOCKED
  else none

/-- The JSON value `JSON.stringify` produces for one `Todo`, with the
property order of the object literal in `addTodo` (App.tsx line 211). -/
def encodeTodo (t : Todo) : Json :=
  .obj [("text".toList, .str t.text),
        ("status".toList, .str (statusToStr t.status)),
        ("id".toList, .str t.id),
        ("duration".toList, .num t.duration)]

/-- Reading a `Todo` back from its JSON value (the shape `JSON.parse`
rebuilds from a serialized `Todo`). -/
def decodeTodo : Json → Option Todo
  | .obj [(k1, .str text), (k2, .str st), (k3, .str id), (k4, .num dur)] =>
    if k1 = "text".toList ∧ k2 = "status".toList ∧ k3 = "id".toList ∧
        k4 = "duration".toList then
      (statusOfStr st).map fun s =>
        { id := id, text := text, status := s, duration := dur }
    else none
  | _ => none

/-- Reading back a list of `Todo`s element by element. -/
def decodeList : List Json → Option (List Todo)
  | [] => some []
  | j :: rest =>
    match decodeTodo j, decodeList rest with
    | some t, some ts => some (t :: ts)
    | _, _ => none

/-- The JSON value for a whole todo list: an array of todo objects. -/
def encodeTodos (l : List Todo) : Json :=
  .arr (l.map encodeTodo)

/-- Reading a todo list back from a JSON value. -/
def decodeTodos : Json → Option (List Todo)
  | .arr js => decodeList js
  | _ => none

/-- The write half of `useLocalStorage` (`setValue`, App.tsx lines 46-55),
at the JSON-value level: `JSON.stringify(valueToStore)` is stored under
`key`; the store maps keys to the JSON values their stored strings parse
to. -/
def saveTodos (store : List Char → Option Json) (key : List Char)
    (l : List Todo) : List Char → Option Json :=
  fun k => if k = key then some (encodeTodos l) else store k

/-- The read half of `useLocalStorage` (the `useState` initializer, App.tsx
lines 37-44), at the JSON-value level: a stored value is `JSON.parse`d and
used, otherwise the default applies. -/
def loadTodos (store : List Char → Option Json) (key : List Char)
    (dflt : List Todo) : List Todo :=
  match store key with
  | none => dflt
  | some j => (decodeTodos j).getD dflt

/-- The `useState` initializer of `useLocalStorage` (App.tsx lines 37-44)
at the raw-string level, with the browser primitives passed explicitly:
`getItem` models `window.localStorage.getItem` (`none` = absent / null,
`Except.error` = a thrown storage error) and `parse` models
`JSON.parse` followed by the unchecked cast to `T` (`Except.error` = a
thrown parse error).  The `item ? ... : initialValue` truthiness test makes
both a null and an empty-string item fall back to `initialValue`, and the
surrounding try/catch turns every thrown error into `initialValue`. -/
def useLocalStorage {T : Type}
    (getItem : List Char → Except Unit (Option (List Char)))
    (parse : List Char → Except Unit T)
    (key : List Char) (initialValue : T) : T :=
  match getItem key with
  | .error _ => initialValue
  | .ok none => initialValue
  | .ok (some item) =>
    if item = [] then initialValue
    else
      match parse item with
      | .error _ => initialValue
      | .ok v => v

/-- The initial value `App` passes to `useLocalStorage` (App.tsx lines
200-207): a single seed todo. -/
def appInitialTodos (draws : Fin 8 → List (Fin 16)) : List Todo :=
  [{ text := "Add your first TODO".toList, status := .TODO,
     id := simpleUniqueId draws, duration := 0 }]

/-! ## Helper lemmas -/

theorem get?_set_self {α : Type} (l : List α) (i : Nat) (a : α)
    (h : i < l.length) : (l.set i a).get? i = some a := by
  simp [List.get?_eq_getElem?, List.getElem?_set_self', List.getElem?_eq_getElem, h]

theorem set_get?_eq_self {α : Type} :
    ∀ (l : List α) (i : Nat) (a : α), l.get? i = some a → l.set i a = l := by
  intro l
  induction l with
  | nil => intro i a h; simp [List.get?] at h
  | cons x xs ih =>
    intro i a h
    cases i with
    | zero => simp [List.get?] at h; simp [List.set, h]
    | succ n => simp only [List.get?] at h; simp [List.set, ih n a h]

theorem todo_eta (t : Todo) : { t with status := t.status } = t := by
  cases t; rfl

theorem advanceTimes_eq (n : Nat) :
    ∀ (todos : List Todo) (i : Nat) (t : Todo), todos.get? i = some t →
      advanceTimes todos i n =
        some (todos.set i { t with status := getStatus^[n] t.status }) := by
  induction n with
  | zero =>
    intro todos i t h
    simp only [advanceTimes, Function.iterate_zero, id_eq, todo_eta,
      set_get?_eq_self todos i t h]
  | succ n ih =>
    intro todos i t h
    have hlen : i < todos.length := (List.get?_eq_some.mp h).1
    have h1 : advanceTimes todos i (n + 1) =
        (advanceTimes todos i n).bind fun l => updateTodo l i := rfl
    rw [h1, ih todos i t h, Option.some_bind]
    simp only [updateTodo, List.set_set]
    rw [get?_set_self todos i _ hlen, Option.map_some', Function.iterate_succ_apply']

theorem getStatus_four (s : TodoStatus) :
    getStatus^[4] s = s := by
  cases s <;> rfl

/-! ## Claims -/

/-- Claim C1: the Advance action maps a task's status through the fixed
cycle todo -> doing -> done -> blocked, wrapping from blocked back to todo,
so that four applications of Advance at the same in-bounds index return
the list (and in particular that task's status) to its starting value. -/
theorem advance_cycle :
    (getStatus .TODO = .DOING ∧ getStatus .DOING = .DONE ∧
      getStatus .DONE = .BLOCKED ∧ getStatus .BLOCKED = .TODO) ∧
    ∀ (todos : List Todo) (i : Nat), i < todos.length →
      advanceTimes todos i 4 = some todos := by
  refine ⟨⟨rfl, rfl, rfl, rfl⟩, fun todos i h => ?_⟩
  have hg : todos.get? i = some (todos.get ⟨i, h⟩) := List.get?_eq_get h
  rw [advanceTimes_eq 4 todos i _ hg, getStatus_four, todo_eta,
    set_get?_eq_self todos i _ hg]

/-- Witness for C1 at a concrete one-element list. -/
theorem advance_cycle_witness :
    advanceTimes [⟨"a".toList, "buy milk".toList, .TODO, 0⟩] 0 4 =
      some [⟨"a".toList, "buy milk".toList, .TODO, 0⟩] :=
  advance_cycle.2 _ 0 (by decide)

/-- Claim C9 (implicit frame property): for an in-bounds index, Advance
changes only the status field of the task at that index; its id, text and
duration, every other task, the length and the order are unchanged. -/
theorem updateTodo_frame :
    ∀ (todos : List Todo) (i : Nat) (t : Todo), todos.get? i = some t →
      ∃ l, updateTodo todos i = some l ∧
        l.length = todos.length ∧
        l.get? i = some { t with status := getStatus t.status } ∧
        ∀ j, j ≠ i → l.get? j = todos.get? j := by
  intro todos i t h
  have hlen : i < todos.length := (List.get?_eq_some.mp h).1
  refine ⟨todos.set i { t with status := getStatus t.status }, ?_, ?_, ?_, ?_⟩
  · simp only [updateTodo, h, Option.map_some']
  · simp
  · exact get?_set_self todos i _ (by simpa using hlen)
  · intro j hj
    simp [List.get?_eq_getElem?, List.getElem?_set_ne (Ne.symm hj)]

/-- Witness for C9 at a concrete two-element list. -/
theorem updateTodo_frame_witness :
    ∃ l, updateTodo [⟨"a".toList, "x".toList, .TODO, 0⟩,
        ⟨"b".toList, "y".toList, .DOING, 0⟩] 1 = some l ∧
      l.length = 2 ∧
      l.get? 1 = some ⟨"b".toList, "y".toList, getStatus .DOING, 0⟩ ∧
      ∀ j, j ≠ 1 → l.get? j =
        [⟨"a".toList, "x".toList, .TODO, 0⟩,
          ⟨"b".toList, "y".toList, .DOING, 0⟩].get? j :=
  updateTodo_frame _ 1 ⟨"b".toList, "y".toList, .DOING, 0⟩ (by decide)

/-- Claim C3: submitting with empty (falsy) text is a guarded no-op: the
task list is left unchanged and no task is created. -/
theorem handleSubmit_empty (draws : Fin 8 → List (Fin 16)) (todos : List Todo) :
    handleSubmit draws [] todos = todos := by
  simp [handleSubmit]

/-- Claim C2 (amended): for non-empty text, Add produces a list one longer
whose first element is the new task (given text, status todo, duration 0,
the freshly generated id) and whose tail is the previous list unchanged;
the new id is unique within the list provided the generated id does not
already occur among the previous tasks' ids. -/
theorem addTodo_spec (draws : Fin 8 → List (Fin 16)) (value : List Char)
    (todos : List Todo) (h : value ≠ []) :
    (handleSubmit draws value todos).length = todos.length + 1 ∧
    (handleSubmit draws value todos).head? =
      some ⟨simpleUniqueId draws, value, .TODO, 0⟩ ∧
    (handleSubmit draws value todos).tail = todos ∧
    (simpleUniqueId draws ∉ todos.map Todo.id →
      ((handleSubmit draws value todos).map Todo.id).count
        (simpleUniqueId draws) = 1) := by
  have he : handleSubmit draws value todos = addTodo draws value todos := by
    simp [handleSubmit, h]
  refine ⟨by simp [he, addTodo], by simp [he, addTodo], by simp [he, addTodo],
    fun hid => ?_⟩
  rw [he]
  simp [addTodo, List.count_cons, List.count_eq_zero_of_not_mem hid]

/-- Witness for C2 at concrete draws, text and list. -/
theorem addTodo_spec_witness :
    (handleSubmit (fun _ => [1, 2, 3, 4]) "call #mom".toList
        [⟨"b".toList, "y".toList, .DOING, 0⟩]).length = 2 ∧
    (handleSubmit (fun _ => [1, 2, 3, 4]) "call #mom".toList
        [⟨"b".toList, "y".toList, .DOING, 0⟩]).head? =
      some ⟨simpleUniqueId (fun _ => [1, 2, 3, 4]), "call #mom".toList, .TODO, 0⟩ ∧
    (handleSubmit (fun _ => [1, 2, 3, 4]) "call #mom".toList
        [⟨"b".toList, "y".toList, .DOING, 0⟩]).tail =
      [⟨"b".toList, "y".toList, .DOING, 0⟩] ∧
    (simpleUniqueId (fun _ => [1, 2, 3, 4]) ∉
        [⟨"b".toList, "y".toList, .DOING, 0⟩].map Todo.id →
      ((handleSubmit (fun _ => [1, 2, 3, 4]) "call #mom".toList
          [⟨"b".toList, "y".toList, .DOING, 0⟩]).map Todo.id).count
        (simpleUniqueId (fun _ => [1, 2, 3, 4])) = 1) :=
  addTodo_spec (fun _ => [1, 2, 3, 4]) "call #mom".toList
    [⟨"b".toList, "y".toList, .DOING, 0⟩] (by decide)

/-- Counterexample for C2 as stated: when the generator's draws produce an
id that already occurs in the list (here all draws are 0, so the id is
"00000000"), the added task's id is not unique within the resulting list. -/
theorem addTodo_id_not_unique :
    ¬ ((handleSubmit (fun _ => []) ['b']
        [⟨"00000000".toList, ['a'], .TODO, 0⟩]).map Todo.id).Nodup := by
  decide

/-- Claim C4: Delete with confirmation denied leaves the list unchanged;
with confirmation accepted it removes exactly the tasks whose id equals the
given one and no others (multiplicity-exact), preserving the relative order
of the remaining tasks (sublist). -/
theorem deleteTodo_spec (todos : List Todo) (index : List Char) :
    deleteTodo false todos index = todos ∧
    (deleteTodo true todos index).Sublist todos ∧
    ∀ t : Todo, (deleteTodo true todos index).count t =
      if t.id = index then 0 else todos.count t := by
  refine ⟨rfl, List.filter_sublist _, fun t => ?_⟩
  by_cases h : t.id = index
  · rw [if_pos h]
    rw [List.count_eq_zero]
    intro hmem
    rw [deleteTodo, if_pos rfl, List.mem_filter] at hmem
    exact absurd h (by simpa using hmem.2)
  · rw [if_neg h, deleteTodo, if_pos rfl, List.count_filter (by simpa using h)]

/-- Claim C5: Reorder replaces the list with the externally supplied order;
when the drag container supplies a permutation of the current list (its
contract), the result is a permutation of the previous list, preserving
the count of every task and the membership set. -/
theorem setList_perm (todos newOrder : List Todo)
    (h : newOrder.Perm todos) :
    (setList todos newOrder).Perm todos ∧
    (setList todos newOrder).length = todos.length ∧
    ∀ t : Todo, (setList todos newOrder).count t = todos.count t ∧
      (t ∈ setList todos newOrder ↔ t ∈ todos) := by
  exact ⟨h, h.length_eq, fun t => ⟨h.count_eq t, h.mem_iff⟩⟩

/-- Witness for C5 at a concrete two-element swap. -/
theorem setList_perm_witness :
    (setList [⟨"a".toList, "x".toList, .TODO, 0⟩,
        ⟨"b".toList, "y".toList, .DOING, 0⟩]
      [⟨"b".toList, "y".toList, .DOING, 0⟩,
        ⟨"a".toList, "x".toList, .TODO, 0⟩]).Perm
      [⟨"a".toList, "x".toList, .TODO, 0⟩,
        ⟨"b".toList, "y".toList, .DOING, 0⟩] :=
  (setList_perm _ _ (by decide)).1

theorem decodeTodo_encodeTodo (t : Todo) : decodeTodo (encodeTodo t) = some t := by
  cases t with
  | mk id text status duration => cases status <;> rfl

theorem decodeList_encode (l : List Todo) :
    decodeList (l.map encodeTodo) = some l := by
  induction l with
  | nil => rfl
  | cons t ts ih => simp [decodeList, decodeTodo_encodeTodo, ih]

/-- Claim C6: round-trip persistence: serializing a task list with the
write half of `useLocalStorage` and reading it back with the read half
reproduces the list field-for-field, for every store, key and default. -/
theorem save_load_roundtrip (store : List Char → Option Json)
    (key : List Char) (l : List Todo) (dflt : List Todo) :
    loadTodos (saveTodos store key l) key dflt = l := by
  simp [loadTodos, saveTodos, encodeTodos, decodeTodos, decodeList_encode]

/-- Claim C7: the `useLocalStorage` initializer returns the deserialized
stored value when one is present (truthy) and parseable, and the supplied
default when the value is absent, when the read throws, when parsing
throws, or when the stored item is the empty (falsy) string; no failure is
surfaced (the result type carries no error). -/
theorem useLocalStorage_contract {T : Type}
    (getItem : List Char → Except Unit (Option (List Char)))
    (parse : List Char → Except Unit T)
    (key : List Char) (dflt : T) :
    (∀ item v, getItem key = .ok (some item) → item ≠ [] →
      parse item = .ok v → useLocalStorage getItem parse key dflt = v) ∧
    (getItem key = .error () → useLocalStorage getItem parse key dflt = dflt) ∧
    (getItem key = .ok none → useLocalStorage getItem parse key dflt = dflt) ∧
    (∀ item, getItem key = .ok (some item) → parse item = .error () →
      useLocalStorage getItem parse key dflt = dflt) ∧
    (∀ item, getItem key = .ok (some item) → item = [] →
      useLocalStorage getItem parse key dflt = dflt) := by
  refine ⟨fun item v h1 h2 h3 => ?_, fun h1 => ?_, fun h1 => ?_,
    fun item h1 h2 => ?_, fun item h1 h2 => ?_⟩
  · simp [useLocalStorage, h1, h2, h3]
  · simp [useLocalStorage, h1]
  · simp [useLocalStorage, h1]
  · by_cases he : item = [] <;> simp [useLocalStorage, h1, h2, he]
  · simp [useLocalStorage, h1, h2]

/-- Witness for C7: a present parseable item is returned; a thrown read
yields the default. -/
theorem useLocalStorage_contract_witness :
    useLocalStorage (fun _ => .ok (some ['1']))
      (fun _ => (.ok 1 : Except Unit Nat)) "todos".toList 0 = 1 ∧
    useLocalStorage (fun _ => (.error () : Except Unit (Option (List Char))))
      (fun _ => (.ok 1 : Except Unit Nat)) "todos".toList 0 = 0 :=
  ⟨(useLocalStorage_contract (fun _ => .ok (some ['1'])) (fun _ => .ok 1)
      "todos".toList 0).1 ['1'] 1 rfl (by decide) rfl,
   (useLocalStorage_contract (fun _ => .error ()) (fun _ => .ok 1)
      "todos".toList 0).2.1 rfl⟩

/-- Claim C10 (implicit default state): when nothing is stored under the
key or the stored value fails to parse, the application's initial task
list is not empty but the single seed task with text "Add your first
TODO", status todo, duration 0, and a freshly generated id. -/
theorem app_default_seed (draws : Fin 8 → List (Fin 16))
    (getItem : List Char → Except Unit (Option (List Char)))
    (parse : List Char → Except Unit (List Todo)) :
    (getItem "todos".toList = .ok none →
      useLocalStorage getItem parse "todos".toList (appInitialTodos draws) =
        appInitialTodos draws) ∧
    (∀ item, getItem "todos".toList = .ok (some item) →
      parse item = .error () →
      useLocalStorage getItem parse "todos".toList (appInitialTodos draws) =
        appInitialTodos draws) ∧
    appInitialTodos draws =
      [⟨simpleUniqueId draws, "Add your first TODO".toList, .TODO, 0⟩] ∧
    appInitialTodos draws ≠ [] := by
  refine ⟨fun h1 => ?_, fun item h1 h2 => ?_, rfl, by simp [appInitialTodos]⟩
  · simp only [useLocalStorage, h1]
  · simp only [useLocalStorage, h1]
    by_cases he : item = []
    · simp [he]
    · simp [he, h2]

/-- Witness for C10: with an absent stored value the state is the seed
task. -/
theorem app_default_seed_witness :
    useLocalStorage (fun _ => .ok none)
      (fun _ => (.error () : Except Unit (List Todo))) "todos".toList
      (appInitialTodos fun _ => [1, 2, 3, 4]) =
      appInitialTodos (fun _ => [1, 2, 3, 4]) :=
  (app_default_seed (fun _ => [1, 2, 3, 4]) (fun _ => .ok none)
    (fun _ => .error ())).1 rfl

theorem hexChar_mem_hex : ∀ d : Fin 16, hexChar d ∈ "0123456789abcdef".toList := by
  decide

theorem gen4_of_long (d : List (Fin 16)) (h : 4 ≤ d.length) :
    (gen4 d).length = 4 ∧ ∀ c ∈ gen4 d, c ∈ "0123456789abcdef".toList := by
  have hne : ¬ d = [] := by
    intro he
    rw [he] at h
    simp at h
  have he : gen4 d = (d.map hexChar).drop (d.length - 4) := by
    rw [gen4, toString16, if_neg hne, sliceLast]
    have hl : ('0' :: '.' :: d.map hexChar).length - 4 = (d.length - 4) + 2 := by
      simp only [List.length_cons, List.length_map]
      omega
    rw [hl]
    rfl
  constructor
  · rw [he, List.length_drop, List.length_map]
    omega
  · intro c hc
    rw [he] at hc
    have hm : c ∈ d.map hexChar := List.mem_of_mem_drop hc
    obtain ⟨d', _, hd'⟩ := List.mem_map.mp hm
    exact hd' ▸ hexChar_mem_hex d'

/-- Claim C8 (amended): whenever every random draw has at least four
base-16 fractional digits (the typical case), `simpleUniqueId` returns a
32-character string of hexadecimal characters, the concatenation of eight
4-character hexadecimal fragments, each the last four characters of the
base-16 rendering of one draw.  (Draws with shorter renderings, such as 0
or 0.5, produce shorter fragments containing non-hex characters, so the
claim does not hold unconditionally.) -/
theorem simpleUniqueId_spec (draws : Fin 8 → List (Fin 16))
    (h : ∀ i, 4 ≤ (draws i).length) :
    (simpleUniqueId draws).length = 32 ∧
    (∀ c ∈ simpleUniqueId draws, c ∈ "0123456789abcdef".toList) ∧
    ∀ i : Fin 8, (gen4 (draws i)).length = 4 := by
  have hl : ∀ i : Fin 8, (gen4 (draws i)).length = 4 := fun i =>
    (gen4_of_long (draws i) (h i)).1
  refine ⟨?_, ?_, hl⟩
  · simp [simpleUniqueId, hl 0, hl 1, hl 2, hl 3, hl 4, hl 5, hl 6, hl 7]
  · intro c hc
    simp only [simpleUniqueId, List.flatten, List.mem_append,
      List.mem_flatten] at hc
    rcases hc with hc | hc | hc | hc | hc | hc | hc | hc | hc
    · exact (gen4_of_long (draws 0) (h 0)).2 c hc
    · exact (gen4_of_long (draws 1) (h 1)).2 c hc
    · exact (gen4_of_long (draws 2) (h 2)).2 c hc
    · exact (gen4_of_long (draws 3) (h 3)).2 c hc
    · exact (gen4_of_long (draws 4) (h 4)).2 c hc
    · exact (gen4_of_long (draws 5) (h 5)).2 c hc
    · exact (gen4_of_long (draws 6) (h 6)).2 c hc
    · exact (gen4_of_long (draws 7) (h 7)).2 c hc
    · exact absurd hc (List.not_mem_nil c)

/-- Witness for C8 with every draw 0.1234 (base 16). -/
theorem simpleUniqueId_spec_witness :
    (simpleUniqueId fun _ => [1, 2, 3, 4]).length = 32 :=
  (simpleUniqueId_spec (fun _ => [1, 2, 3, 4]) (by decide)).1

/-- Counterexample for C8 as stated: with every draw equal to 0.5 (base-16
rendering "0.8", shorter than four characters), the generated id is 24
characters long, not 32, and contains the non-hexadecimal character
`.`. -/
theorem simpleUniqueId_not_32_hex :
    (simpleUniqueId fun _ => [8]).length = 24 ∧
      '.' ∈ simpleUniqueId fun _ => [8] := by
  decide

end SavagesList
